import Mathlib

/-!
Shallow embedding of the multi-tenant RBAC / tenant-resolution / audit / cache
core of the commerce backend, together with proofs of its specified properties.

Sources embedded:
- backend/src/modules/tenant/rbac-service.ts        (RbacService)
- backend/src/modules/tenant/admin-user-service.ts  (AdminUserService)
- backend/src/api/middlewares/tenant-context.ts     (tenantContextMiddleware)
- audit-service (AuditService.log), audit middleware (auditMiddleware, logAudit,
  sanitizeBody), performance utilities (getCachedTenant, getCachedQuery),
  tenant-scoped-service (verifyTenantOwnership, TenantScopedService).

Conventions: the datastore is modelled as an explicit value (lists of rows);
async functions become pure functions of that state; JS `null`/`undefined`
becomes `Option`; machine time is a `Nat` millisecond clock passed explicitly;
a fallible call becomes `Except String`.
-/

namespace Impact

/-- JSON-like scalar values appearing in request bodies and audit metadata. -/
inductive JSVal where
  | str : String → JSVal
  | num : Int → JSVal
  | bool : Bool → JSVal
  | null : JSVal
deriving DecidableEq, Repr

/-- JS property read `obj[k]` on an object modelled as an association list
(first binding wins; JS objects have unique keys). -/
def assocLookup {β : Type} (k : String) : List (String × β) → Option β
  | [] => none
  | p :: t => if p.1 == k then some p.2 else assocLookup k t

/-- JS property write `obj[k] = v` when `k` is already a key of the object. -/
def assocReplace {β : Type} (l : List (String × β)) (k : String) (v : β) :
    List (String × β) :=
  l.map (fun p => if p.1 == k then (k, v) else p)

/-- JS `||` on nullable values. -/
def jsOr {β : Type} (a b : Option β) : Option β :=
  match a with
  | some x => some x
  | none => b

/-- `s.split(c)` of JS, over the character list of the string. -/
def splitChars (c : Char) : List Char → List String
  | [] => [""]
  | ch :: rest =>
      let r := splitChars c rest
      if ch = c then "" :: r
      else (String.singleton ch ++ r.headD "") :: r.tail

/-- Single-quoted interpolation used in reason strings (`\x27` is a quote). -/
def sq (s : String) : String := "\x27" ++ s ++ "\x27"

/-- `Except` success test (the operation did not throw). -/
def isOkE {ε β : Type} : Except ε β → Bool
  | Except.ok _ => true
  | Except.error _ => false

/-! ## RBAC service (rbac-service.ts) -/

/-- `Role` of rbac-service.ts. -/
inductive Role where
  | GlobalAdmin | TenantAdmin | CatalogMgr | OrderOps | ReadOnly
deriving DecidableEq, Repr

/-- `Action` of rbac-service.ts; `star` is the wildcard. -/
inductive Action where
  | create | read | update | delete | cancel | fulfill | refund | star
deriving DecidableEq, Repr

/-- `Resource` of rbac-service.ts; `star` is the wildcard. -/
inductive Resource where
  | product | order | customer | tenant | user | star
deriving DecidableEq, Repr

/-- A row of the `rbac_policy` table (interface RbacPolicy). Conditions are the
JSON object of string-valued condition entries, `none` for SQL NULL. -/
structure RbacPolicy where
  id : String
  role : Role
  resource : Resource
  actions : List Action
  conditions : Option (List (String × String))
  version : Nat
  effective_from : Nat
  effective_until : Option Nat
deriving DecidableEq, Repr

/-- A row of the `admin_user` table. -/
structure AdminUserRow where
  id : String
  user_id : String
  tenant_id : Option String
  role : Role
  email : String
  is_active : Bool
deriving DecidableEq, Repr

/-- The relational datastore visible to the RBAC and admin-user services. -/
structure Db where
  policies : List RbacPolicy
  admin_users : List AdminUserRow
deriving DecidableEq, Repr

/-- The `WHERE effective_from <= NOW() AND (effective_until IS NULL OR
effective_until > NOW())` filter of `loadPolicies`. -/
def policyIsEffective (p : RbacPolicy) (now : Nat) : Bool :=
  decide (p.effective_from ≤ now) &&
    (match p.effective_until with
     | none => true
     | some u => decide (u > now))

/-- `loadPolicies` followed by `policyCache.get(role)`: the effective policies
of one role (grouping by role = filtering to that role). -/
def policiesForRole (db : Db) (now : Nat) (role : Role) : List RbacPolicy :=
  db.policies.filter (fun p => p.role == role && policyIsEffective p now)

/-- `RbacService.evaluateConditions`. A falsy `conditions` or a falsy `context`
makes the conditions pass; otherwise every condition key must map to exactly
the condition value in the context. -/
def evaluateConditions (conditions : Option (List (String × String)))
    (context : Option (List (String × String))) : Bool :=
  match conditions, context with
  | none, _ => true
  | _, none => true
  | some conds, some ctx =>
      conds.all (fun kv => assocLookup kv.1 ctx == some kv.2)

/-- `RbacService.hasPermission`. GlobalAdmin short-circuits; otherwise the
first effective policy of the role whose resource and action match and whose
conditions (if any) pass grants permission. -/
def hasPermission (db : Db) (now : Nat) (role : Role) (resource : Resource)
    (action : Action) (context : Option (List (String × String))) : Bool :=
  if role = Role.GlobalAdmin then true
  else
    (policiesForRole db now role).any (fun policy =>
      if policy.resource ≠ Resource.star ∧ policy.resource ≠ resource then false
      else if policy.actions.contains Action.star ∨ policy.actions.contains action then
        match policy.conditions with
        | some _ => evaluateConditions policy.conditions context
        | none => true
      else false)

/-- `RbacService.getUserRoles`: active assignments of the user, as
(role, tenant_id) pairs. -/
def getUserRoles (db : Db) (userId : String) : List (Role × Option String) :=
  (db.admin_users.filter (fun r => r.user_id == userId && r.is_active)).map
    (fun r => (r.role, r.tenant_id))

/-- `RbacService.canAccessTenant`. -/
def canAccessTenant (db : Db) (userId : String) (tenantId : String) : Bool :=
  let userRoles := getUserRoles db userId
  if userRoles.any (fun r => r.1 == Role.GlobalAdmin) then true
  else userRoles.any (fun r => r.2 == some tenantId)

/-- The `{ allowed, reason? }` result of `verifyAccess`. -/
structure AccessResult where
  allowed : Bool
  reason : Option String
deriving DecidableEq, Repr

/-- String form of an action (template interpolation in reason strings). -/
def actionName : Action → String
  | .create => "create"
  | .read => "read"
  | .update => "update"
  | .delete => "delete"
  | .cancel => "cancel"
  | .fulfill => "fulfill"
  | .refund => "refund"
  | .star => "*"

/-- String form of a resource (template interpolation in reason strings). -/
def resourceName : Resource → String
  | .product => "product"
  | .order => "order"
  | .customer => "customer"
  | .tenant => "tenant"
  | .user => "user"
  | .star => "*"

/-- `RbacService.verifyAccess`. Note that the per-role permission check is
invoked WITHOUT a context argument, exactly as in the source
(`this.hasPermission(role, resource, action)`). -/
def verifyAccess (db : Db) (now : Nat) (userId : String) (tenantId : String)
    (resource : Resource) (action : Action) : AccessResult :=
  let userRoles := getUserRoles db userId
  if userRoles.isEmpty then
    { allowed := false, reason := some "No roles assigned to user" }
  else if ¬ canAccessTenant db userId tenantId then
    { allowed := false, reason := some ("No access to tenant " ++ sq tenantId) }
  else if userRoles.any (fun r => hasPermission db now r.1 resource action none) then
    { allowed := true, reason := none }
  else
    { allowed := false,
      reason := some ("No permission to " ++ sq (actionName action) ++ " on "
        ++ sq (resourceName resource)) }

/-! ## Admin user service (admin-user-service.ts) -/

/-- `AdminUserService.assignUserToTenant`: INSERT .. ON CONFLICT (user_id,
tenant_id) DO UPDATE SET role, is_active = true. -/
def assignUserToTenant (db : Db) (newId userId tenantId : String) (role : Role)
    (email : String) : Db :=
  if db.admin_users.any (fun r => r.user_id == userId && r.tenant_id == some tenantId) then
    { db with admin_users := db.admin_users.map (fun r =>
        if r.user_id == userId && r.tenant_id == some tenantId then
          { r with role := role, is_active := true }
        else r) }
  else
    { db with admin_users := db.admin_users ++
        [{ id := newId, user_id := userId, tenant_id := some tenantId,
           role := role, email := email, is_active := true }] }

/-- `AdminUserService.removeUserFromTenant`: UPDATE .. SET is_active = false. -/
def removeUserFromTenant (db : Db) (userId tenantId : String) : Db :=
  { db with admin_users := db.admin_users.map (fun r =>
      if r.user_id == userId && r.tenant_id == some tenantId then
        { r with is_active := false }
      else r) }

/-! ## Tenant context middleware (tenant-context.ts) -/

/-- A tenant record, abstracted to what the middleware reads. -/
structure Tenant where
  id : String
  name : String
deriving DecidableEq, Repr

/-- The tenant module service, by its two lookup tables. -/
structure TenantStore where
  byId : List (String × Tenant)
  byDomain : List (String × Tenant)
deriving Repr

/-- `tenantService.getTenantById`. -/
def getTenantById (s : TenantStore) (tenantId : String) : Option Tenant :=
  assocLookup tenantId s.byId

/-- `tenantService.getTenantByDomain`. -/
def getTenantByDomain (s : TenantStore) (domain : String) : Option Tenant :=
  assocLookup domain s.byDomain

/-- What the middleware injects into the request: `req.tenant` and
`req.tenantDetectionMethod`. -/
structure TenantResolution where
  tenant : Option Tenant
  detectionMethod : String
deriving DecidableEq, Repr

/-- `tenantContextMiddleware`: header lookup, then subdomain, then full domain
(port stripped), then the fixed `hq` default. `headerTenantId` is the
`x-tenant-id` header (`none` when absent; the source treats an empty string as
falsy). -/
def tenantContextMiddleware (store : TenantStore) (headerTenantId : Option String)
    (host : String) : TenantResolution :=
  let s1 : TenantResolution :=
    match headerTenantId with
    | some h =>
        if h ≠ "" then
          { tenant := getTenantById store h, detectionMethod := "header" }
        else { tenant := none, detectionMethod := "none" }
    | none => { tenant := none, detectionMethod := "none" }
  let s2 : TenantResolution :=
    if s1.tenant.isNone then
      let parts := splitChars (Char.ofNat 46) host.toList
      if parts.length > 2 then
        match getTenantByDomain store (parts.headD "") with
        | some t => { tenant := some t, detectionMethod := "subdomain" }
        | none => s1
      else s1
    else s1
  let s3 : TenantResolution :=
    if s2.tenant.isNone then
      let domain := (splitChars (Char.ofNat 58) host.toList).headD ""
      match getTenantByDomain store domain with
      | some t => { tenant := some t, detectionMethod := "domain" }
      | none => s2
    else s2
  if s3.tenant.isNone then
    { tenant := getTenantById store "hq", detectionMethod := "default" }
  else s3

/-! ## Performance utilities: in-memory caches (getCachedTenant, getCachedQuery) -/

/-- An entry of one of the in-memory cache maps: `{ data, expiry }`. -/
structure CacheEntry (α : Type) where
  data : α
  expiry : Nat
deriving DecidableEq, Repr

/-- A `Map<string, {data, expiry}>` cache, as an association list. -/
abbrev CacheMap (α : Type) := List (String × CacheEntry α)

/-- `Map.set` semantics: replace the binding when the key exists, else append. -/
def cacheSet {α : Type} (m : CacheMap α) (k : String) (e : CacheEntry α) : CacheMap α :=
  if m.any (fun p => p.1 == k) then assocReplace m k e else m ++ [(k, e)]

/-- `CACHE_TTL = 5 * 60 * 1000` of the performance utilities. -/
def CACHE_TTL : Nat := 5 * 60 * 1000

/-- Outcome of a `getCachedTenant` call: the returned value, the cache map
after the call, and whether `fetchFn` was invoked. -/
structure TenantCacheCall (α : Type) where
  result : Option α
  cache : CacheMap α
  fetched : Bool
deriving DecidableEq, Repr

/-- `getCachedTenant`. The async `fetchFn` is modelled by the value
`fetchResult` it would resolve to (`none` for a null/falsy result); `fetched`
records whether it was invoked. A falsy fetch result is returned but NOT
stored in the cache. -/
def getCachedTenant {α : Type} (cache : CacheMap α) (tenantId : String) (now : Nat)
    (fetchResult : Option α) : TenantCacheCall α :=
  let hit : Option α :=
    match assocLookup tenantId cache with
    | some cached => if cached.expiry > now then some cached.data else none
    | none => none
  match hit with
  | some d => { result := some d, cache := cache, fetched := false }
  | none =>
      match fetchResult with
      | some d =>
          { result := some d,
            cache := cacheSet cache tenantId { data := d, expiry := now + CACHE_TTL },
            fetched := true }
      | none => { result := none, cache := cache, fetched := true }

/-- Outcome of a `getCachedQuery` call. -/
structure QueryCacheCall (α : Type) where
  result : α
  cache : CacheMap α
  fetched : Bool
deriving DecidableEq, Repr

/-- `getCachedQuery`. Unlike `getCachedTenant`, the fetched value is stored
unconditionally (`queryCache.set` is not guarded by a truthiness test). -/
def getCachedQuery {α : Type} (cache : CacheMap α) (cacheKey : String) (now : Nat)
    (ttl : Nat) (fetchResult : α) : QueryCacheCall α :=
  let hit : Option α :=
    match assocLookup cacheKey cache with
    | some cached => if cached.expiry > now then some cached.data else none
    | none => none
  match hit with
  | some d => { result := d, cache := cache, fetched := false }
  | none =>
      { result := fetchResult,
        cache := cacheSet cache cacheKey { data := fetchResult, expiry := now + ttl },
        fetched := true }

/-! ## Audit service (AuditService.log) -/

/-- `AuditAction` of audit-service. `exportData` stands for the source's
`export` literal (a reserved word here). -/
inductive AuditAction where
  | create | update | delete | read | login | logout | exportData
deriving DecidableEq, Repr

/-- `AuditResource` of audit-service. -/
inductive AuditResource where
  | tenant | product | order | customer | user | cart | payment
deriving DecidableEq, Repr

/-- `AuditLogEntry` of audit-service. -/
structure AuditLogEntry where
  tenantId : String
  userId : Option String
  action : AuditAction
  resource : AuditResource
  resourceId : Option String
  ipAddress : Option String
  userAgent : Option String
  metadata : Option (List (String × JSVal))
deriving DecidableEq, Repr

/-- A row of the `audit_log` table as inserted by `AuditService.log`. -/
structure AuditRow where
  id : String
  tenant_id : String
  user_id : Option String
  action : AuditAction
  resource : AuditResource
  resource_id : Option String
  ip_address : Option String
  user_agent : Option String
  metadata : Option (List (String × JSVal))
deriving DecidableEq, Repr

/-- The INSERT parameter list of `AuditService.log` (`entry.userId || null`
etc. become the Option fields directly). -/
def auditRowOf (id : String) (entry : AuditLogEntry) : AuditRow :=
  { id := id
    tenant_id := entry.tenantId
    user_id := entry.userId
    action := entry.action
    resource := entry.resource
    resource_id := entry.resourceId
    ip_address := entry.ipAddress
    user_agent := entry.userAgent
    metadata := entry.metadata }

/-- What `AuditService.log` did: persisted the row, or caught a persistence
failure and only logged it to the console. -/
inductive LogOutcome where
  | persisted (row : AuditRow)
  | persistFailedLogged (msg : String)
deriving DecidableEq, Repr

/-- `AuditService.log`. The datastore write is the fallible `persist`; the
try/catch of the source turns its failure into a normal return (an
`Except.error` result would model an exception escaping to the caller). -/
def auditServiceLog (persist : AuditRow → Except String Unit) (id : String)
    (entry : AuditLogEntry) : Except String LogOutcome :=
  let row := auditRowOf id entry
  match persist row with
  | Except.ok _ => Except.ok (LogOutcome.persisted row)
  | Except.error e => Except.ok (LogOutcome.persistFailedLogged e)

/-! ## Audit middleware (auditMiddleware, logAudit, sanitizeBody) -/

/-- `methodToAction` map of the audit middleware. -/
def methodToAction (m : String) : Option AuditAction :=
  if m = "POST" then some AuditAction.create
  else if m = "PUT" then some AuditAction.update
  else if m = "PATCH" then some AuditAction.update
  else if m = "DELETE" then some AuditAction.delete
  else if m = "GET" then some AuditAction.read
  else none

/-- `resourceMap` lookup of `extractResource`. -/
def resourceMapLookup (s : String) : Option AuditResource :=
  if s = "tenants" then some AuditResource.tenant
  else if s = "products" then some AuditResource.product
  else if s = "orders" then some AuditResource.order
  else if s = "customers" then some AuditResource.customer
  else if s = "users" then some AuditResource.user
  else if s = "carts" then some AuditResource.cart
  else if s = "payments" then some AuditResource.payment
  else none

/-- Leftmost occurrence of an `admin/<seg>` or `store/<seg>` pair among the
path segments: the regex `\/(admin|store)\/([^\/]+)` over the split path. -/
def findScopeSegment : List String → Option String
  | a :: b :: rest =>
      if (a = "admin" ∨ a = "store") ∧ b ≠ "" then some b
      else findScopeSegment (b :: rest)
  | _ => none

/-- `extractResource`: match `/admin/{resource}` or `/store/{resource}` and
map the segment through `resourceMap` (unknown segments give `none`). The
leading split element is dropped so a match needs a `/` before `admin|store`,
as in the regex. -/
def extractResource (path : String) : Option AuditResource :=
  match splitChars (Char.ofNat 47) path.toList with
  | [] => none
  | _ :: rest =>
      match findScopeSegment rest with
      | none => none
      | some seg => resourceMapLookup seg

/-- Character class `[a-zA-Z0-9_-]` of `extractResourceId`. -/
def isIdChar (c : Char) : Bool :=
  c.isAlpha || c.isDigit || c == Char.ofNat 95 || c == Char.ofNat 45

/-- `extractResourceId`: the regex `\/([^\/]+)\/([a-zA-Z0-9_-]+)$` — the last
path segment when it is a plain identifier preceded by a nonempty segment that
is itself preceded by a slash. -/
def extractResourceId (path : String) : Option String :=
  match (splitChars (Char.ofNat 47) path.toList).reverse with
  | seg :: prev :: _ :: _ =>
      if seg ≠ "" ∧ seg.toList.all isIdChar ∧ prev ≠ "" then some seg else none
  | _ => none

/-- The redaction marker written over sensitive fields. -/
def REDACTED : JSVal := JSVal.str "[REDACTED]"

/-- `sensitiveFields` deny-list of `sanitizeBody`. -/
def sensitiveFields : List String :=
  ["password", "password_hash", "secret", "token", "api_key", "credit_card",
   "cvv", "ssn"]

/-- One iteration of the `for (const field of sensitiveFields)` loop:
`if (field in sanitized) sanitized[field] = REDACTED`. -/
def redactStep (sanitized : List (String × JSVal)) (field : String) :
    List (String × JSVal) :=
  if sanitized.any (fun p => p.1 == field) then assocReplace sanitized field REDACTED
  else sanitized

/-- `sanitizeBody`: a non-object body gives `{}`; otherwise every top-level
sensitive field of the copied body is overwritten with the marker. -/
def sanitizeBody (body : Option (List (String × JSVal))) : List (String × JSVal) :=
  match body with
  | none => []
  | some b => sensitiveFields.foldl redactStep b

/-- `req.rbacCheck` as set by the RBAC middleware. -/
structure RbacCheckInfo where
  resource : Resource
  action : Action
  allowed : Bool
deriving DecidableEq, Repr

/-- The metadata object assembled by `logAudit`. -/
structure AuditMetadata where
  method : String
  path : String
  statusCode : Nat
  rbacCheck : Option RbacCheckInfo
  changes : Option (List (String × JSVal))
deriving DecidableEq, Repr

/-- The audit entry as persisted through `auditService.logFromRequest` (the
write is assumed to succeed; a failed write is swallowed, see
`auditServiceLog`). -/
structure PersistedAudit where
  tenantId : String
  userId : Option String
  action : AuditAction
  resource : AuditResource
  resourceId : Option String
  ipAddress : Option String
  userAgent : Option String
  metadata : AuditMetadata
deriving DecidableEq, Repr

/-- The request fields read by the audit middleware. `tenantId` models
`req.tenantId || req.tenant?.id` (both tenant signals collapsed), `body` is
`req.body` (`none` when absent or not an object). -/
structure AuditRequest where
  method : String
  path : String
  body : Option (List (String × JSVal))
  tenantId : Option String
  userId : Option String
  ip : Option String
  userAgent : Option String
  rbacCheck : Option RbacCheckInfo
deriving Repr

/-- The `responseBody?.id || responseBody?.data?.id || ...` chain inputs. -/
structure ResponseBodyIds where
  id : Option String
  dataId : Option String
  tenantId : Option String
  productId : Option String
deriving DecidableEq, Repr

/-- `logAudit` composed with `logFromRequest`: `none` when nothing is written
(non-2xx status), otherwise the persisted entry. -/
def logAudit (req : AuditRequest) (statusCode : Nat) (action : AuditAction)
    (resource : AuditResource) (resourceId : Option String)
    (responseBody : ResponseBodyIds) : Option PersistedAudit :=
  if statusCode < 200 ∨ statusCode ≥ 300 then none
  else
    let finalResourceId :=
      jsOr resourceId (jsOr responseBody.id (jsOr responseBody.dataId
        (jsOr responseBody.tenantId responseBody.productId)))
    let sanitized := sanitizeBody req.body
    let changes :=
      if (action = AuditAction.create ∨ action = AuditAction.update) ∧ sanitized.length > 0
      then some sanitized
      else none
    some
      { tenantId := (req.tenantId).getD "hq"
        userId := req.userId
        action := action
        resource := resource
        resourceId := finalResourceId
        ipAddress := req.ip
        userAgent := req.userAgent
        metadata :=
          { method := req.method
            path := req.path
            statusCode := statusCode
            rbacCheck := req.rbacCheck
            changes := changes } }

/-- The methods the middleware audits. -/
def mutatingMethods : List String := ["POST", "PUT", "PATCH", "DELETE"]

/-- `auditMiddleware`: skip non-mutating methods and untracked resources;
otherwise intercept the response and run `logAudit` with the response status. -/
def auditMiddleware (req : AuditRequest) (statusCode : Nat)
    (responseBody : ResponseBodyIds) : Option PersistedAudit :=
  if ¬ mutatingMethods.contains req.method then none
  else
    match methodToAction req.method with
    | none => none
    | some action =>
        match extractResource req.path with
        | none => none
        | some resource =>
            logAudit req statusCode action resource (extractResourceId req.path)
              responseBody

/-! ## Tenant-scoped service helper (verifyTenantOwnership, TenantScopedService) -/

/-- `verifyTenantOwnership`: throws unless the request has a tenant context,
the entity carries a tenant_id, and the two agree. -/
def verifyTenantOwnership (currentTenantId : Option String)
    (entityTenantId : Option String) (entityType : String) : Except String Unit :=
  match currentTenantId with
  | none => Except.error "No tenant context found"
  | some cur =>
      match entityTenantId with
      | none => Except.error (entityType ++ " does not have tenant_id")
      | some ent =>
          if ent ≠ cur then
            Except.error ("Access denied: " ++ entityType ++ " belongs to tenant "
              ++ sq ent ++ " but current tenant is " ++ sq cur)
          else Except.ok ()

/-- An entity as seen by the ownership guard. -/
structure Entity where
  entityId : String
  tenant_id : Option String
deriving DecidableEq, Repr

/-- The wrapped Medusa service, by its fallible operations. -/
structure UnderlyingService where
  retrieveFn : String → Except String Entity
  updateFn : String → List (String × JSVal) → Except String Entity
  deleteFn : String → Except String Unit

/-- `TenantScopedService.retrieve`: underlying retrieve, then ownership
verification, then return the entity. -/
def scopedRetrieve (currentTenantId : Option String) (svc : UnderlyingService)
    (id : String) (entityType : String) : Except String Entity := do
  let entity ← svc.retrieveFn id
  let _ ← verifyTenantOwnership currentTenantId entity.tenant_id entityType
  pure entity

/-- `TenantScopedService.update`: verify ownership via retrieve, then update. -/
def scopedUpdate (currentTenantId : Option String) (svc : UnderlyingService)
    (id : String) (data : List (String × JSVal)) (entityType : String) :
    Except String Entity := do
  let _ ← scopedRetrieve currentTenantId svc id entityType
  svc.updateFn id data

/-- `TenantScopedService.delete`: verify ownership via retrieve, then delete. -/
def scopedDelete (currentTenantId : Option String) (svc : UnderlyingService)
    (id : String) (entityType : String) : Except String Unit := do
  let _ ← scopedRetrieve currentTenantId svc id entityType
  svc.deleteFn id

/-! ## Concrete scenario data -/

/-- The conditional policy of the spec scenario: role OrderOps, resource
order, action refund, condition region = EU. -/
def regionPolicy : RbacPolicy :=
  { id := "pol1", role := Role.OrderOps, resource := Resource.order,
    actions := [Action.refund], conditions := some [("region", "EU")],
    version := 1, effective_from := 0, effective_until := none }

/-- Datastore for the conditional-policy scenario: the policy above is the
only policy, and u1 holds OrderOps on t1. -/
def regionDb : Db :=
  { policies := [regionPolicy],
    admin_users := [{ id := "a1", user_id := "u1", tenant_id := some "t1",
                      role := Role.OrderOps, email := "u1@x.com",
                      is_active := true }] }

/-- The headquarters tenant. -/
def hqTenant : Tenant := { id := "hq", name := "HQ" }

/-- The paris tenant, registered under the subdomain alias `paris`. -/
def parisTenant : Tenant := { id := "paris", name := "Paris" }

/-- Tenant store with `hq` known by id and `paris` known by domain alias. -/
def demoStore : TenantStore :=
  { byId := [("hq", hqTenant)], byDomain := [("paris", parisTenant)] }

/-- The CatalogMgr-create-product policy of the role-revocation scenario. -/
def catalogPolicy : RbacPolicy :=
  { id := "pol_cm", role := Role.CatalogMgr, resource := Resource.product,
    actions := [Action.create], conditions := none,
    version := 1, effective_from := 0, effective_until := none }

/-- Role-revocation scenario, initial state: the policy exists, no user is
assigned anywhere. -/
def revokeDb0 : Db := { policies := [catalogPolicy], admin_users := [] }

/-- Role-revocation scenario after assigning u1 the CatalogMgr role on t1. -/
def revokeDb1 : Db := assignUserToTenant revokeDb0 "adm1" "u1" "t1" Role.CatalogMgr "u1@x.com"

/-- Role-revocation scenario after deactivating that assignment. -/
def revokeDb2 : Db := removeUserFromTenant revokeDb1 "u1" "t1"

/-- A db whose only row assigns u9 the GlobalAdmin role, with NO policies. -/
def gaDb : Db :=
  { policies := [],
    admin_users := [{ id := "ga1", user_id := "u9", tenant_id := some "hq",
                      role := Role.GlobalAdmin, email := "root@x.com",
                      is_active := true }] }

/-- Query cache after one fetch that resolved to a falsy (null) value. -/
def nullCachedQueryCache : CacheMap (Option Nat) :=
  (getCachedQuery ([] : CacheMap (Option Nat)) "k" 0 60000 none).cache

/-- A create request whose body carries a top-level `password` field. -/
def pwRequest : AuditRequest :=
  { method := "POST", path := "/admin/customers",
    body := some [("email", JSVal.str "a@b.c"), ("password", JSVal.str "hunter2")],
    tenantId := some "t1", userId := some "u1", ip := none, userAgent := none,
    rbacCheck := none }

/-- Empty response-body id chain. -/
def noIds : ResponseBodyIds :=
  { id := none, dataId := none, tenantId := none, productId := none }

/-- A mutating request to a tracked resource (used with a failure status). -/
def failReq : AuditRequest :=
  { method := "POST", path := "/admin/products", body := none,
    tenantId := some "t1", userId := some "u1", ip := none, userAgent := none,
    rbacCheck := none }

/-- Underlying service for the ownership-guard witness: every operation
succeeds and the stored entity belongs to tenant t2. -/
def t2Service : UnderlyingService :=
  { retrieveFn := fun _ => Except.ok { entityId := "e1", tenant_id := some "t2" }
    updateFn := fun _ _ => Except.ok { entityId := "e1", tenant_id := some "t2" }
    deleteFn := fun _ => Except.ok () }

/-! ## Helper lemmas on the association-list primitives -/

theorem assocReplace_cons {β : Type} (k : String) (v : β) (p : String × β)
    (t : List (String × β)) :
    assocReplace (p :: t) k v
      = (if p.1 == k then (k, v) else p) :: assocReplace t k v := rfl

theorem assocLookup_cons {β : Type} (k : String) (p : String × β)
    (t : List (String × β)) :
    assocLookup k (p :: t) = if p.1 == k then some p.2 else assocLookup k t := rfl

theorem assocLookup_assocReplace_self {β : Type} (k : String) (v : β)
    (l : List (String × β)) (h : l.any (fun p => p.1 == k) = true) :
    assocLookup k (assocReplace l k v) = some v := by
  induction l with
  | nil => simp at h
  | cons p t ih =>
      rw [assocReplace_cons, assocLookup_cons]
      by_cases hpk : p.1 = k
      · have hb : (p.1 == k) = true := by simp [hpk]
        simp [hb]
      · have hb : (p.1 == k) = false := by simp [hpk]
        rw [List.any_cons, hb, Bool.false_or] at h
        simp only [hb, Bool.false_eq_true, if_false]
        exact ih h

theorem assocLookup_assocReplace_ne {β : Type} (k k' : String) (v : β)
    (l : List (String × β)) (h : k' ≠ k) :
    assocLookup k' (assocReplace l k v) = assocLookup k' l := by
  induction l with
  | nil => rfl
  | cons p t ih =>
      rw [assocReplace_cons, assocLookup_cons, assocLookup_cons]
      by_cases hpk : p.1 = k
      · have hb : (p.1 == k) = true := by simp [hpk]
        have hpk' : ¬ p.1 = k' := by rw [hpk]; exact fun hk => h hk.symm
        have hkk : ¬ k = k' := fun hk => h hk.symm
        simp [hb, hkk, hpk', ih]
      · have hb : (p.1 == k) = false := by simp [hpk]
        by_cases hpk' : p.1 = k'
        · simp [hb, hpk', h]
        · simp [hb, hpk', ih]

theorem assocReplace_length {β : Type} (k : String) (v : β)
    (l : List (String × β)) : (assocReplace l k v).length = l.length := by
  simp [assocReplace]

theorem assocLookup_append_self {β : Type} (k : String) (v : β)
    (l : List (String × β)) (h : l.any (fun p => p.1 == k) = false) :
    assocLookup k (l ++ [(k, v)]) = some v := by
  induction l with
  | nil => simp [assocLookup]
  | cons p t ih =>
      rw [List.any_cons, Bool.or_eq_false_iff] at h
      simp [assocLookup, h.1, ih h.2]

theorem assocLookup_cacheSet_self {α : Type} (m : CacheMap α) (k : String)
    (e : CacheEntry α) : assocLookup k (cacheSet m k e) = some e := by
  unfold cacheSet
  by_cases h : m.any (fun p => p.1 == k) = true
  · simp [h, assocLookup_assocReplace_self]
  · simp [h, assocLookup_append_self k e m (Bool.eq_false_iff.mpr h)]

theorem redactStep_length (l : List (String × JSVal)) (f : String) :
    (redactStep l f).length = l.length := by
  unfold redactStep
  split
  · exact assocReplace_length f REDACTED l
  · rfl

theorem foldl_redact_length (fs : List String) (acc : List (String × JSVal)) :
    (fs.foldl redactStep acc).length = acc.length := by
  induction fs generalizing acc with
  | nil => rfl
  | cons f t ih => simp [List.foldl_cons, ih, redactStep_length]

theorem assocLookup_redactStep_ne (k f : String) (h : k ≠ f)
    (l : List (String × JSVal)) :
    assocLookup k (redactStep l f) = assocLookup k l := by
  unfold redactStep
  split
  · exact assocLookup_assocReplace_ne f k REDACTED l h
  · rfl

theorem assocLookup_foldl_redact (fs : List String) (acc : List (String × JSVal))
    (k : String) (h : k ∉ fs) :
    assocLookup k (fs.foldl redactStep acc) = assocLookup k acc := by
  induction fs generalizing acc with
  | nil => rfl
  | cons f t ih =>
      have hne : k ≠ f := fun hk => h (hk ▸ List.mem_cons_self f t)
      have ht : k ∉ t := fun hk => h (List.mem_cons_of_mem f hk)
      simp [List.foldl_cons, ih _ ht, assocLookup_redactStep_ne k f hne]

/-! ## Claims -/

/-- C1, counterexample. The claim predicts that with the conditional policy
being the only policy, a request context of region US (or one missing the
region key) leaves `verifyAccess` denying. In the code `verifyAccess` never
passes any context to `hasPermission` (its own signature carries none), and
`evaluateConditions` returns true for an absent context, so `verifyAccess`
returns allowed regardless of the request context — even though
`hasPermission` with the explicit US context does skip the policy. -/
theorem C1_conditional_policy_counterexample :
    verifyAccess regionDb 0 "u1" "t1" Resource.order Action.refund
        = { allowed := true, reason := none }
      ∧ hasPermission regionDb 0 Role.OrderOps Resource.order Action.refund
          (some [("region", "US")]) = false
      ∧ hasPermission regionDb 0 Role.OrderOps Resource.order Action.refund
          none = true :=
  ⟨by decide, by decide, by decide⟩

/-- C1, amended. When a context object is supplied to `hasPermission`,
permission through the conditional policy is granted exactly when the
context maps `region` to `EU`; a mismatched or missing key skips the policy
(continuing, not denying). When no context is supplied the conditions pass
vacuously — and `verifyAccess` never supplies one, so it allows through the
conditional policy irrespective of any request context. -/
theorem C1_conditional_policy_amended :
    (∀ ctx : List (String × String),
        hasPermission regionDb 0 Role.OrderOps Resource.order Action.refund
            (some ctx) = true
          ↔ assocLookup "region" ctx = some "EU")
      ∧ hasPermission regionDb 0 Role.OrderOps Resource.order Action.refund
          none = true
      ∧ verifyAccess regionDb 0 "u1" "t1" Resource.order Action.refund
          = { allowed := true, reason := none } := by
  refine ⟨?_, by decide, by decide⟩
  intro ctx
  simp [hasPermission, policiesForRole, regionDb, regionPolicy, policyIsEffective,
    evaluateConditions]

/-- C2, counterexample. A request with an explicit X-Tenant-ID header whose
lookup fails does NOT resolve to that lookup result: resolution falls through
to the host-based subdomain lookup. -/
theorem C2_header_fallthrough_counterexample :
    tenantContextMiddleware demoStore (some "ghost") "paris.impactnutrition.com"
        = { tenant := some parisTenant, detectionMethod := "subdomain" }
      ∧ getTenantById demoStore "ghost" = none :=
  ⟨by decide, by decide⟩

/-- C2, amended. When the explicit header is present, nonempty and its lookup
succeeds, the resolved tenant is exactly that lookup result, regardless of
any host signal; when the header lookup fails, evaluation falls through to
host-based detection (and then to the default). -/
theorem C2_header_precedence_amended (store : TenantStore) (h host : String)
    (t : Tenant) (hne : h ≠ "") (hfound : getTenantById store h = some t) :
    tenantContextMiddleware store (some h) host
      = { tenant := some t, detectionMethod := "header" } := by
  simp [tenantContextMiddleware, hne, hfound]

/-- C2, amended, witness: header `hq` resolves by id even though the host
carries a matching subdomain signal for `paris`. -/
theorem C2_header_precedence_amended_witness :
    ("hq" : String) ≠ ""
      ∧ getTenantById demoStore "hq" = some hqTenant
      ∧ tenantContextMiddleware demoStore (some "hq") "paris.impactnutrition.com"
          = { tenant := some hqTenant, detectionMethod := "header" } :=
  ⟨by decide, by decide,
    C2_header_precedence_amended demoStore "hq" "paris.impactnutrition.com"
      hqTenant (by decide) (by decide)⟩

/-- C3: any user holding an active GlobalAdmin assignment is allowed by
`verifyAccess` for every tenant, resource and action — over an arbitrary
datastore, in particular one with no policy rows at all. -/
theorem C3_global_admin_allows (db : Db) (now : Nat) (userId tenantId : String)
    (resource : Resource) (action : Action)
    (h : ∃ r : AdminUserRow, r ∈ db.admin_users ∧ r.user_id = userId
        ∧ r.is_active = true ∧ r.role = Role.GlobalAdmin) :
    (verifyAccess db now userId tenantId resource action).allowed = true := by
  obtain ⟨r, hmem, hu, ha, hrole⟩ := h
  have hmemroles : (Role.GlobalAdmin, r.tenant_id) ∈ getUserRoles db userId := by
    unfold getUserRoles
    refine List.mem_map.mpr ⟨r, List.mem_filter.mpr ⟨hmem, ?_⟩, ?_⟩
    · simp [hu, ha]
    · simp [hrole]
  have hne : (getUserRoles db userId).isEmpty = false := by
    cases hgr : getUserRoles db userId with
    | nil => rw [hgr] at hmemroles; cases hmemroles
    | cons a l => rfl
  have hga : (getUserRoles db userId).any
      (fun rr => rr.1 == Role.GlobalAdmin) = true :=
    List.any_eq_true.mpr ⟨_, hmemroles, by simp⟩
  have hca : canAccessTenant db userId tenantId = true := by
    unfold canAccessTenant
    simp [hga]
  have hperm : (getUserRoles db userId).any
      (fun rr => hasPermission db now rr.1 resource action none) = true :=
    List.any_eq_true.mpr ⟨_, hmemroles, by simp [hasPermission]⟩
  unfold verifyAccess
  simp [hne, hca, hperm]

/-- C3, witness: a GlobalAdmin user is allowed to refund orders on an
arbitrary tenant although the datastore holds no policy rows. -/
theorem C3_global_admin_allows_witness :
    (∃ r : AdminUserRow, r ∈ gaDb.admin_users ∧ r.user_id = "u9"
        ∧ r.is_active = true ∧ r.role = Role.GlobalAdmin)
      ∧ (verifyAccess gaDb 0 "u9" "t42" Resource.order Action.refund).allowed = true :=
  ⟨⟨{ id := "ga1", user_id := "u9", tenant_id := some "hq",
      role := Role.GlobalAdmin, email := "root@x.com", is_active := true },
     by decide⟩,
    C3_global_admin_allows gaDb 0 "u9" "t42" Resource.order Action.refund
      ⟨{ id := "ga1", user_id := "u9", tenant_id := some "hq",
         role := Role.GlobalAdmin, email := "root@x.com", is_active := true },
       by decide⟩⟩

/-- C4: `AuditService.log` never throws to its caller — for every entry and
every behavior of the datastore write, including failure, the call returns
normally (an `Except.error` result would model an escaping exception; the
source's catch block turns the failure into a console log only). -/
theorem C4_audit_log_never_throws (persist : AuditRow → Except String Unit)
    (id : String) (entry : AuditLogEntry) :
    ∃ o : LogOutcome, auditServiceLog persist id entry = Except.ok o := by
  simp only [auditServiceLog]
  cases hp : persist (auditRowOf id entry) with
  | ok u => exact ⟨_, rfl⟩
  | error e => exact ⟨_, rfl⟩

/-- C5, counterexample. After `getCachedQuery` fetches a falsy (null) result,
the next access under the same key within the TTL does NOT invoke the fetch
function again: the query-result cache stores falsy results, contradicting
the claim that no cache of the layer performs negative caching. -/
theorem C5_negative_caching_counterexample :
    (getCachedQuery nullCachedQueryCache "k" 1 60000 (some 5)).fetched = false
      ∧ (getCachedQuery nullCachedQueryCache "k" 1 60000 (some 5)).result = none :=
  ⟨by decide, by decide⟩

/-- C5, amended. The tenant cache does not store a falsy fetch result (the
cache map is unchanged and the next access fetches again), but the
query-result cache stores every fetch result unconditionally, falsy ones
included. -/
theorem C5_negative_caching_amended {α β : Type} (c0 : CacheMap α) (k : String)
    (t1 t2 : Nat) (f2 : Option α) (q0 : CacheMap β) (kq : String)
    (u1 ttl : Nat) (w : β)
    (hc : assocLookup k c0 = none) (hq : assocLookup kq q0 = none) :
    (getCachedTenant c0 k t1 none).result = none
      ∧ (getCachedTenant c0 k t1 none).cache = c0
      ∧ (getCachedTenant c0 k t1 none).fetched = true
      ∧ (getCachedTenant ((getCachedTenant c0 k t1 none).cache) k t2 f2).fetched = true
      ∧ assocLookup kq (getCachedQuery q0 kq u1 ttl w).cache
          = some { data := w, expiry := u1 + ttl } := by
  have h1 : getCachedTenant c0 k t1 none
      = { result := none, cache := c0, fetched := true } := by
    simp [getCachedTenant, hc]
  refine ⟨by rw [h1], by rw [h1], by rw [h1], ?_, ?_⟩
  · rw [h1]
    cases f2 <;> simp [getCachedTenant, hc]
  · simp [getCachedQuery, hq, assocLookup_cacheSet_self]

/-- C5, amended, witness at concrete caches and keys. -/
theorem C5_negative_caching_amended_witness :
    assocLookup "a" ([] : CacheMap Nat) = none
      ∧ assocLookup "b" ([] : CacheMap Nat) = none
      ∧ ((getCachedTenant ([] : CacheMap Nat) "a" 0 none).result = none
        ∧ (getCachedTenant ([] : CacheMap Nat) "a" 0 none).cache = []
        ∧ (getCachedTenant ([] : CacheMap Nat) "a" 0 none).fetched = true
        ∧ (getCachedTenant ((getCachedTenant ([] : CacheMap Nat) "a" 0 none).cache)
            "a" 1 (some 7)).fetched = true
        ∧ assocLookup "b" (getCachedQuery ([] : CacheMap Nat) "b" 0 60000 3).cache
            = some { data := 3, expiry := 0 + 60000 }) :=
  ⟨rfl, rfl,
    C5_negative_caching_amended ([] : CacheMap Nat) "a" 0 1 (some 7)
      ([] : CacheMap Nat) "b" 0 60000 3 rfl rfl⟩

/-- C6: for a fresh key whose fetch yields a cacheable (truthy) value, a
second `getOrFetch`-style call within the TTL window returns the cached value
without invoking the fetch function (one invocation across both calls), and a
call at or past expiry invokes it again (two invocations) — for both the
tenant cache and the query-result cache. -/
theorem C6_cache_idempotence {α β : Type} (c0 : CacheMap α) (q0 : CacheMap β)
    (k kq : String) (t1 t2 t3 u1 u2 u3 ttl : Nat) (v : α) (w : β)
    (f2 f3 : Option α) (g2 g3 : β)
    (hc : assocLookup k c0 = none) (ht2 : t2 < t1 + CACHE_TTL)
    (ht3 : t1 + CACHE_TTL ≤ t3)
    (hq : assocLookup kq q0 = none) (hu2 : u2 < u1 + ttl)
    (hu3 : u1 + ttl ≤ u3) :
    ((getCachedTenant c0 k t1 (some v)).fetched = true
      ∧ (getCachedTenant ((getCachedTenant c0 k t1 (some v)).cache) k t2 f2).fetched
          = false
      ∧ (getCachedTenant ((getCachedTenant c0 k t1 (some v)).cache) k t2 f2).result
          = some v
      ∧ (getCachedTenant ((getCachedTenant c0 k t1 (some v)).cache) k t3 f3).fetched
          = true)
    ∧ ((getCachedQuery q0 kq u1 ttl w).fetched = true
      ∧ (getCachedQuery ((getCachedQuery q0 kq u1 ttl w).cache) kq u2 ttl g2).fetched
          = false
      ∧ (getCachedQuery ((getCachedQuery q0 kq u1 ttl w).cache) kq u2 ttl g2).result
          = w
      ∧ (getCachedQuery ((getCachedQuery q0 kq u1 ttl w).cache) kq u3 ttl g3).fetched
          = true) := by
  have h1 : getCachedTenant c0 k t1 (some v)
      = { result := some v,
          cache := cacheSet c0 k { data := v, expiry := t1 + CACHE_TTL },
          fetched := true } := by
    simp [getCachedTenant, hc]
  have hl1 : assocLookup k (cacheSet c0 k { data := v, expiry := t1 + CACHE_TTL })
      = some { data := v, expiry := t1 + CACHE_TTL } :=
    assocLookup_cacheSet_self c0 k { data := v, expiry := t1 + CACHE_TTL }
  have ht3n : ¬ (t3 < t1 + CACHE_TTL) := Nat.not_lt.mpr ht3
  have hq1 : getCachedQuery q0 kq u1 ttl w
      = { result := w,
          cache := cacheSet q0 kq { data := w, expiry := u1 + ttl },
          fetched := true } := by
    simp [getCachedQuery, hq]
  have hlq : assocLookup kq (cacheSet q0 kq { data := w, expiry := u1 + ttl })
      = some { data := w, expiry := u1 + ttl } :=
    assocLookup_cacheSet_self q0 kq { data := w, expiry := u1 + ttl }
  have hu3n : ¬ (u3 < u1 + ttl) := Nat.not_lt.mpr hu3
  refine ⟨⟨by rw [h1], ?_, ?_, ?_⟩, ⟨by rw [hq1], ?_, ?_, ?_⟩⟩
  · rw [h1]
    simp [getCachedTenant, hl1, ht2]
  · rw [h1]
    simp [getCachedTenant, hl1, ht2]
  · rw [h1]
    cases f3 <;> simp [getCachedTenant, hl1, ht3n]
  · rw [hq1]
    simp [getCachedQuery, hlq, hu2]
  · rw [hq1]
    simp [getCachedQuery, hlq, hu2]
  · rw [hq1]
    simp [getCachedQuery, hlq, hu3n]

/-- C6, witness at concrete caches, keys, times and values. -/
theorem C6_cache_idempotence_witness :
    assocLookup "a" ([] : CacheMap Nat) = none
      ∧ (1 : Nat) < 0 + CACHE_TTL
      ∧ 0 + CACHE_TTL ≤ 300000
      ∧ assocLookup "b" ([] : CacheMap Nat) = none
      ∧ (1 : Nat) < 0 + 60000
      ∧ (0 : Nat) + 60000 ≤ 60000
      ∧ (((getCachedTenant ([] : CacheMap Nat) "a" 0 (some 1)).fetched = true
        ∧ (getCachedTenant ((getCachedTenant ([] : CacheMap Nat) "a" 0 (some 1)).cache)
            "a" 1 (some 9)).fetched = false
        ∧ (getCachedTenant ((getCachedTenant ([] : CacheMap Nat) "a" 0 (some 1)).cache)
            "a" 1 (some 9)).result = some 1
        ∧ (getCachedTenant ((getCachedTenant ([] : CacheMap Nat) "a" 0 (some 1)).cache)
            "a" 300000 none).fetched = true)
      ∧ ((getCachedQuery ([] : CacheMap Nat) "b" 0 60000 2).fetched = true
        ∧ (getCachedQuery ((getCachedQuery ([] : CacheMap Nat) "b" 0 60000 2).cache)
            "b" 1 60000 7).fetched = false
        ∧ (getCachedQuery ((getCachedQuery ([] : CacheMap Nat) "b" 0 60000 2).cache)
            "b" 1 60000 7).result = 2
        ∧ (getCachedQuery ((getCachedQuery ([] : CacheMap Nat) "b" 0 60000 2).cache)
            "b" 60000 60000 8).fetched = true)) :=
  ⟨rfl, by decide, by decide, rfl, by decide, by decide,
    C6_cache_idempotence ([] : CacheMap Nat) ([] : CacheMap Nat) "a" "b"
      0 1 300000 0 1 60000 60000 1 2 (some 9) none 7 8
      rfl (by decide) (by decide) rfl (by decide) (by decide)⟩

/-- C7: a create/update request body carrying a top-level `password` field is
persisted by the audit pipeline with that field overwritten by the redaction
marker; the original value is never the persisted one at that key. -/
theorem C7_password_redaction (req : AuditRequest) (b : List (String × JSVal))
    (statusCode : Nat) (action : AuditAction) (resource : AuditResource)
    (resourceId : Option String) (rb : ResponseBodyIds)
    (hbody : req.body = some b)
    (hpw : b.any (fun p => p.1 == "password") = true)
    (hact : action = AuditAction.create ∨ action = AuditAction.update)
    (h2 : 200 ≤ statusCode) (h3 : statusCode < 300) :
    ∃ e : PersistedAudit,
      logAudit req statusCode action resource resourceId rb = some e
        ∧ e.metadata.changes = some (sanitizeBody (some b))
        ∧ assocLookup "password" (sanitizeBody (some b)) = some REDACTED
        ∧ ∀ v : JSVal, assocLookup "password" (sanitizeBody (some b)) = some v
            → v = REDACTED := by
  have hlen : (sanitizeBody (some b)).length = b.length := by
    simp [sanitizeBody, foldl_redact_length]
  have hpos : 0 < b.length := by
    cases b with
    | nil => simp at hpw
    | cons x t => simp
  have hred : assocLookup "password" (sanitizeBody (some b)) = some REDACTED := by
    show assocLookup "password" (sensitiveFields.foldl redactStep b) = some REDACTED
    unfold sensitiveFields
    rw [List.foldl_cons,
      assocLookup_foldl_redact _ _ _ (by decide)]
    unfold redactStep
    rw [if_pos hpw]
    exact assocLookup_assocReplace_self _ _ _ hpw
  have hstat : ¬ (statusCode < 200 ∨ statusCode ≥ 300) := by omega
  have hcond : (action = AuditAction.create ∨ action = AuditAction.update)
      ∧ (sanitizeBody (some b)).length > 0 := ⟨hact, by rw [hlen]; exact hpos⟩
  have hmain : logAudit req statusCode action resource resourceId rb = some
      { tenantId := (req.tenantId).getD "hq"
        userId := req.userId
        action := action
        resource := resource
        resourceId := jsOr resourceId (jsOr rb.id (jsOr rb.dataId
          (jsOr rb.tenantId rb.productId)))
        ipAddress := req.ip
        userAgent := req.userAgent
        metadata := { method := req.method, path := req.path,
                      statusCode := statusCode, rbacCheck := req.rbacCheck,
                      changes := some (sanitizeBody (some b)) } } := by
    simp only [logAudit, hbody]
    rw [if_neg hstat, if_pos hcond]
  exact ⟨_, hmain, rfl, hred,
    fun v hv => by rw [hred] at hv; exact (Option.some_inj.mp hv).symm⟩

/-- C7, witness: a POST with body carrying `password: hunter2` is audited
with the password field redacted. -/
theorem C7_password_redaction_witness :
    pwRequest.body = some [("email", JSVal.str "a@b.c"),
        ("password", JSVal.str "hunter2")]
      ∧ ([("email", JSVal.str "a@b.c"), ("password", JSVal.str "hunter2")].any
          (fun p => p.1 == "password")) = true
      ∧ (AuditAction.create = AuditAction.create
          ∨ AuditAction.create = AuditAction.update)
      ∧ (200 : Nat) ≤ 201 ∧ (201 : Nat) < 300
      ∧ ∃ e : PersistedAudit,
          logAudit pwRequest 201 AuditAction.create AuditResource.customer none
              noIds = some e
            ∧ e.metadata.changes = some (sanitizeBody (some [("email", JSVal.str "a@b.c"),
                ("password", JSVal.str "hunter2")]))
            ∧ assocLookup "password" (sanitizeBody (some [("email", JSVal.str "a@b.c"),
                ("password", JSVal.str "hunter2")])) = some REDACTED
            ∧ ∀ v : JSVal, assocLookup "password"
                (sanitizeBody (some [("email", JSVal.str "a@b.c"),
                  ("password", JSVal.str "hunter2")])) = some v → v = REDACTED :=
  ⟨rfl, by decide, Or.inl rfl, by decide, by decide,
    C7_password_redaction pwRequest
      [("email", JSVal.str "a@b.c"), ("password", JSVal.str "hunter2")]
      201 AuditAction.create AuditResource.customer none noIds
      rfl (by decide) (Or.inl rfl) (by decide) (by decide)⟩

/-- C8: role-revocation scenario. With a CatalogMgr-create-product policy in
place, assigning u1 CatalogMgr on t1 makes `verifyAccess(u1, t1, product,
create)` allowed; after deactivating that sole assignment the same call is
denied with the no-roles-assigned reason. -/
theorem C8_role_revocation_scenario :
    verifyAccess revokeDb1 0 "u1" "t1" Resource.product Action.create
        = { allowed := true, reason := none }
      ∧ verifyAccess revokeDb2 0 "u1" "t1" Resource.product Action.create
        = { allowed := false, reason := some "No roles assigned to user" } :=
  ⟨by decide, by decide⟩

/-- C9: the audit middleware writes an entry only for 2xx responses — any
mutating request whose response status is below 200 or at least 300 produces
no audit entry at all. -/
theorem C9_non_2xx_not_audited (req : AuditRequest) (statusCode : Nat)
    (rb : ResponseBodyIds)
    (hm : mutatingMethods.contains req.method = true)
    (hs : statusCode < 200 ∨ statusCode ≥ 300) :
    auditMiddleware req statusCode rb = none := by
  unfold auditMiddleware
  rw [if_neg (not_not_intro hm)]
  cases hma : methodToAction req.method with
  | none => rfl
  | some action =>
      cases hr : extractResource req.path with
      | none => rfl
      | some resource =>
          show logAudit req statusCode action resource (extractResourceId req.path) rb
            = none
          unfold logAudit
          rw [if_pos hs]

/-- C9, witness: a POST to a tracked resource answered with 404 is not
audited. -/
theorem C9_non_2xx_not_audited_witness :
    mutatingMethods.contains failReq.method = true
      ∧ ((404 : Nat) < 200 ∨ (404 : Nat) ≥ 300)
      ∧ auditMiddleware failReq 404 noIds = none :=
  ⟨by decide, Or.inr (by decide),
    C9_non_2xx_not_audited failReq 404 noIds (by decide) (Or.inr (by decide))⟩

/-- C10: the tenant-ownership guard completes normally exactly when the
entity's tenant_id equals the request's tenant identifier; when the
tenant_id is missing or different, the guard throws, and so do the wrapped
retrieve, update and delete operations before forwarding. -/
theorem C10_tenant_ownership_guard (cur : String) (svc : UnderlyingService)
    (id entityType : String) (data : List (String × JSVal)) (entity : Entity)
    (hret : svc.retrieveFn id = Except.ok entity) :
    (isOkE (verifyTenantOwnership (some cur) entity.tenant_id entityType) = true
        ↔ entity.tenant_id = some cur)
      ∧ (entity.tenant_id ≠ some cur →
          isOkE (scopedRetrieve (some cur) svc id entityType) = false
            ∧ isOkE (scopedUpdate (some cur) svc id data entityType) = false
            ∧ isOkE (scopedDelete (some cur) svc id entityType) = false)
      ∧ (entity.tenant_id = some cur →
          scopedRetrieve (some cur) svc id entityType = Except.ok entity) := by
  refine ⟨?_, ?_, ?_⟩
  · cases hti : entity.tenant_id with
    | none => simp [verifyTenantOwnership, isOkE]
    | some e =>
        by_cases he : e = cur
        · simp [verifyTenantOwnership, isOkE, he]
        · simp [verifyTenantOwnership, isOkE, he]
  · intro hne
    have hex : ∃ msg, verifyTenantOwnership (some cur) entity.tenant_id entityType
        = Except.error msg := by
      cases hti : entity.tenant_id with
      | none => exact ⟨_, rfl⟩
      | some e =>
          have hec : e ≠ cur := fun hc => hne (by rw [hti, hc])
          exact ⟨"Access denied: " ++ entityType ++ " belongs to tenant " ++ sq e
              ++ " but current tenant is " ++ sq cur,
            by simp [verifyTenantOwnership, hec]⟩
    obtain ⟨msg, hmsg⟩ := hex
    have hsr : scopedRetrieve (some cur) svc id entityType = Except.error msg := by
      show (svc.retrieveFn id >>= fun entity =>
          verifyTenantOwnership (some cur) entity.tenant_id entityType >>= fun _ =>
            pure entity) = Except.error msg
      rw [hret]
      show (verifyTenantOwnership (some cur) entity.tenant_id entityType >>= fun _ =>
          pure entity) = Except.error msg
      rw [hmsg]
      rfl
    refine ⟨by rw [hsr]; rfl, ?_, ?_⟩
    · show isOkE (scopedRetrieve (some cur) svc id entityType >>= fun _ =>
          svc.updateFn id data) = false
      rw [hsr]
      rfl
    · show isOkE (scopedRetrieve (some cur) svc id entityType >>= fun _ =>
          svc.deleteFn id) = false
      rw [hsr]
      rfl
  · intro heq
    have hok : verifyTenantOwnership (some cur) entity.tenant_id entityType
        = Except.ok () := by
      rw [heq]
      simp [verifyTenantOwnership]
    show (svc.retrieveFn id >>= fun entity =>
        verifyTenantOwnership (some cur) entity.tenant_id entityType >>= fun _ =>
          pure entity) = Except.ok entity
    rw [hret]
    show (verifyTenantOwnership (some cur) entity.tenant_id entityType >>= fun _ =>
        pure entity) = Except.ok entity
    rw [hok]
    rfl

/-- C10, witness: an entity of tenant t2 under a request for tenant t1 fails
the guard and all wrapped operations; under the matching tenant, retrieve
returns the entity. -/
theorem C10_tenant_ownership_guard_witness :
    t2Service.retrieveFn "e1" = Except.ok { entityId := "e1", tenant_id := some "t2" }
      ∧ ((isOkE (verifyTenantOwnership (some "t1") (some "t2") "Entity") = true
          ↔ (some "t2" : Option String) = some "t1")
        ∧ ((some "t2" : Option String) ≠ some "t1" →
            isOkE (scopedRetrieve (some "t1") t2Service "e1" "Entity") = false
              ∧ isOkE (scopedUpdate (some "t1") t2Service "e1" [] "Entity") = false
              ∧ isOkE (scopedDelete (some "t1") t2Service "e1" "Entity") = false)
        ∧ ((some "t2" : Option String) = some "t1" →
            scopedRetrieve (some "t1") t2Service "e1" "Entity"
              = Except.ok { entityId := "e1", tenant_id := some "t2" })) :=
  ⟨rfl,
    C10_tenant_ownership_guard "t1" t2Service "e1" "Entity" []
      { entityId := "e1", tenant_id := some "t2" } rfl⟩

end Impact
